import Mathlib

/-!
Shallow embedding of the scan-result normalization core of the
network-recon toolkit (Go sources under `src/`): the two scanner adapters
(`pkg/nmap/scanner.go`, containing both the `nmap` package and the
`masscan` package), the shared scan configuration / result model
(`internal/scanner`, in `src/unnamed/part_002`), the `models.Host` /
`models.Port` entities (`src/unnamed/part_001`), and the scanner registry
(`ScannerManager`, `src/unnamed/part_002`).

Modelling conventions:
* Go strings are Lean `String`s; the Go `strings` package helpers used by
  the adapters (`TrimSpace`, `Split` on a one-character separator,
  `Fields`) are re-implemented over `List Char` so that every definition
  is executable and kernel-reducible.
* Effectful identity/time fields (`uuid.UUID` ids, `time.Time`
  timestamps, the RFC3339 start/end/duration strings of `ScanResult`)
  carry no information relevant to any claim and are omitted from the
  embedded records; every other field of the Go structs is kept.
  `models.Host` has no ports field in the source, and neither does the
  embedded `Host`.
* Library decoders are parameters: `encoding/json`'s `Unmarshal` of one
  masscan line is a parameter `md : String → Option MasscanResult`
  (`none` = decode error, the line is skipped), and `encoding/xml`'s
  `Unmarshal` of the whole nmap document is a parameter
  `xd : String → Except String NmapRun` (`Except.error e` = decode error
  with message `e`).  The external process run inside `Scan` is a
  parameter of type `ExecOutcome` (`cmd.Output()` returning either an
  error plus partial output, or the captured standard output).
* Go's regexp literal `^(\d+(-\d+)?)(,\d+(-\d+)?)*$` (RE2, `\d` =
  ASCII digits, anchored, no multiline flag) denotes the language
  "comma-separated items, each a digit run optionally followed by a
  hyphen and a digit run"; `portSpecOK` decides exactly that language
  by splitting on the (non-digit) separator characters.
* Go's `strconv.Atoi(s)` = `ParseInt(s, 10, 64)`: an optional sign
  followed by at least one ASCII digit, rejected on 64-bit overflow;
  embedded as `atoi`.
-/

namespace NetRecon

/-! ## Go `strings`/`strconv`/`unicode` helpers -/

/-- Embeds Go `unicode.IsSpace` (the Unicode White_Space property). -/
def isSpaceGo (c : Char) : Bool :=
  c = ' ' || c = '\t' || c = '\n' || c = '\u000b' || c = '\u000c' || c = '\r' ||
  c = '\u0085' || c = '\u00a0' || c = '\u1680' ||
  ('\u2000' ≤ c && c ≤ '\u200a') ||
  c = '\u2028' || c = '\u2029' || c = '\u202f' || c = '\u205f' || c = '\u3000'

/-- Embeds Go `strings.TrimSpace` (on the character list of the string). -/
def trimGo (cs : List Char) : List Char :=
  ((cs.dropWhile isSpaceGo).reverse.dropWhile isSpaceGo).reverse

/-- Splits a character list at every character satisfying `p`, keeping
empty fields: the list of fields between separator occurrences. -/
def splitPred (p : Char → Bool) : List Char → List (List Char)
  | [] => [[]]
  | x :: rest =>
    if p x then [] :: splitPred p rest
    else
      match splitPred p rest with
      | [] => [[x]]
      | g :: gs => (x :: g) :: gs

/-- Embeds Go `strings.Split` with a one-character separator:
splitting the empty string yields one empty field, and each separator
occurrence ends a field. -/
def splitChar (sep : Char) (cs : List Char) : List (List Char) :=
  splitPred (fun c => c = sep) cs

/-- Embeds Go `strings.Fields`: the maximal runs of non-whitespace
characters (split around runs of `unicode.IsSpace` characters). -/
def fieldsChar (cs : List Char) : List (List Char) :=
  (splitPred isSpaceGo cs).filter (fun g => g ≠ [])

/-- Go `strings.Fields` lifted to `String`. -/
def goFields (s : String) : List String :=
  (fieldsChar s.data).map String.mk

/-- Numeric value of a list of ASCII digits, most significant first. -/
def digitsVal (cs : List Char) : Nat :=
  cs.foldl (fun a c => a * 10 + (c.toNat - 48)) 0

/-- Embeds Go `strconv.Atoi` (= `ParseInt(s, 10, 64)`): optional `+`/`-`
sign, then one or more ASCII digits, rejected when the value leaves the
signed 64-bit range. `none` models a non-nil error return. -/
def atoi (s : String) : Option Int :=
  let p : Bool × List Char :=
    match s.data with
    | '+' :: rest => (false, rest)
    | '-' :: rest => (true, rest)
    | cs => (false, cs)
  if p.2.isEmpty then none
  else if !p.2.all Char.isDigit then none
  else
    let v : Int := if p.1 then -(Int.ofNat (digitsVal p.2)) else Int.ofNat (digitsVal p.2)
    if v < -(2 ^ 63) ∨ 2 ^ 63 - 1 < v then none else some v

/-! ## Port-specification grammar

The source validates `config.Ports` against the anchored RE2 regexp
`^(\d+(-\d+)?)(,\d+(-\d+)?)*$`.  Since `,` and `-` are not digits, that
language is exactly: the string splits on `,` into one or more items,
and each item splits on `-` into either one or two nonempty digit runs. -/

/-- One or more ASCII digits (`\d+`). -/
def digitRun (cs : List Char) : Bool :=
  !cs.isEmpty && cs.all Char.isDigit

/-- One item of the port grammar: `\d+(-\d+)?`. -/
def portItemOK (cs : List Char) : Bool :=
  match splitChar '-' cs with
  | [a] => digitRun a
  | [a, b] => digitRun a && digitRun b
  | _ => false

/-- Decides membership in the language of the source's port regexp
`^(\d+(-\d+)?)(,\d+(-\d+)?)*$`. -/
def portSpecOK (s : String) : Bool :=
  (splitChar ',' s.data).all portItemOK

/-! ## Shared data model (`internal/scanner`, `internal/models`) -/

/-- Embeds `scanner.ScanConfig` (src/unnamed/part_002).  The unused
`Options map[string]string` field is omitted. -/
structure ScanConfig where
  ports : String
  timing : String
  arguments : String
  output : String
  timeout : Int
  threads : Int
deriving Repr, DecidableEq

/-- Embeds `models.Host` (src/unnamed/part_001 lines 243-252), minus the
effectful `ID`/`ScanID`/`CreatedAt` fields.  Note the source struct has
no ports field. -/
structure Host where
  ipAddress : String
  hostname : String
  status : String
  os : String
  osConfidence : Int
deriving Repr, DecidableEq

/-- Embeds `models.Port` (src/unnamed/part_001 lines 255-266), minus the
effectful `ID`/`HostID`/`CreatedAt` fields. -/
structure Port where
  number : Int
  protocol : String
  state : String
  service : String
  version : String
  product : String
  extraInfo : String
deriving Repr, DecidableEq

/-- Embeds `scanner.ScanResult` (src/unnamed/part_002), minus the
timestamp/duration strings. `error = ""` models the unset Go zero value
(a nil wrapped error). -/
structure ScanResult where
  target : String
  scanner : String
  status : String
  hosts : List Host
  rawOutput : String
  error : String
deriving Repr, DecidableEq

/-- Outcome of `exec.CommandContext(...).Output()`: either a non-nil
error (with whatever partial output was captured) — covering non-zero
exit, a missing executable and context cancellation — or the captured
standard output. -/
inductive ExecOutcome where
  | failure (errMsg : String) (output : String)
  | success (output : String)
deriving Repr, DecidableEq

/-! ## masscan adapter (`package masscan` half of `pkg/nmap/scanner.go`) -/

/-- One port entry of a decoded masscan JSON line
(`MasscanResult.Ports` element, scanner.go lines 396-402). -/
structure MasscanPortInfo where
  port : Int
  proto : String
  status : String
  reason : String
  ttl : Int
deriving Repr, DecidableEq

/-- Embeds `MasscanResult` (scanner.go lines 393-403): one decoded JSON
line of masscan output. -/
structure MasscanResult where
  ip : String
  timestamp : String
  ports : List MasscanPortInfo
deriving Repr, DecidableEq

/-- Host freshly inserted by the masscan fold (scanner.go lines 426-431):
status fixed to "up", every other non-id field left at its zero value. -/
def newUpHost (ip : String) : Host :=
  { ipAddress := ip, hostname := "", status := "up", os := "", osConfidence := 0 }

/-- One iteration of the line loop of `parseMasscanJSON` (scanner.go
lines 412-449) over the insertion-ordered host map: blank lines and
lines the decoder rejects are skipped; the first occurrence of an IP
inserts a fresh "up" host; later occurrences leave the map unchanged.
The `models.Port` values the source builds from `result.Ports` are bound
to `_` and discarded (lines 436-448), so they do not appear here. -/
def masscanFoldLine (md : String → Option MasscanResult)
    (hostMap : List (String × Host)) (line : String) : List (String × Host) :=
  if trimGo line.data = [] then hostMap
  else
    match md line with
    | none => hostMap
    | some r =>
      match List.lookup r.ip hostMap with
      | some _ => hostMap
      | none => hostMap ++ [(r.ip, newUpHost r.ip)]

/-- Embeds `parseMasscanJSON` (scanner.go lines 406-458): trim the whole
output, split it into lines, fold the lines into a host map, return the
hosts.  The single `return` site returns a nil error, embedded as the
single `Except.ok`. -/
def parseMasscanJSON (md : String → Option MasscanResult)
    (jsonData : String) : Except String (List Host) :=
  let lines := (splitChar '\n' (trimGo jsonData.data)).map String.mk
  Except.ok ((lines.foldl (masscanFoldLine md) []).map Prod.snd)

/-- Ports decoded from one masscan line by `GetPortsFromJSON`
(scanner.go lines 476-486); non-id fields only. -/
def portsOfResult (r : MasscanResult) : List Port :=
  r.ports.map fun p =>
    { number := p.port, protocol := p.proto, state := p.status,
      service := "", version := "", product := "", extraInfo := "" }

/-- Embeds `GetPortsFromJSON` (scanner.go lines 461-490): the same line
loop, but collecting the `models.Port` values instead of discarding
them.  (The `hostID` argument of the source only populates the omitted
effectful `HostID` field.) -/
def GetPortsFromJSON (md : String → Option MasscanResult)
    (jsonData : String) : Except String (List Port) :=
  let lines := (splitChar '\n' (trimGo jsonData.data)).map String.mk
  Except.ok (lines.foldl (fun acc line =>
    if trimGo line.data = [] then acc
    else
      match md line with
      | none => acc
      | some r => acc ++ portsOfResult r) [])

/-- Embeds masscan `Scanner.ValidateConfig` (scanner.go lines 295-311). -/
def masscanValidateConfig (c : ScanConfig) : Except String Unit :=
  if c.ports = "" then Except.error "ports must be specified for masscan"
  else if !portSpecOK c.ports then Except.error ("invalid port format: " ++ c.ports)
  else if 0 < c.threads ∧ 100000 < c.threads then
    Except.error ("thread count too high: " ++ toString c.threads ++ " (max 100000)")
  else Except.ok ()

/-- Argument vector built by masscan `Scanner.Scan` (scanner.go lines
321-344): target, ports, rate (default 1000 when `Threads` is not
positive), output format, then user extra arguments last. -/
def masscanBuildArgs (c : ScanConfig) (target : String) : List String :=
  let args : List String := []
  let args := args ++ [target]
  let args := args ++ ["-p", c.ports]
  let args := if 0 < c.threads then args ++ ["--rate", toString c.threads]
              else args ++ ["--rate", "1000"]
  let args := args ++ ["--output-format", "json"]
  let args := if c.arguments ≠ "" then args ++ goFields c.arguments else args
  args

/-- The post-execution half of masscan `Scanner.Scan` (scanner.go lines
365-389): branch on the parse result.  A parse error yields
status `completed_with_errors`, no hosts, the parse error message, and a
nil caller error; a parse success yields status `completed`. -/
def masscanFinalize (pr : Except String (List Host)) (target out : String) :
    Option ScanResult × Option String :=
  match pr with
  | Except.error pe =>
    (some { target := target, scanner := "masscan", status := "completed_with_errors",
            hosts := [], rawOutput := out, error := pe }, none)
  | Except.ok hosts =>
    (some { target := target, scanner := "masscan", status := "completed",
            hosts := hosts, rawOutput := out, error := "" }, none)

/-- Embeds masscan `Scanner.Scan` (scanner.go lines 314-390) given the
outcome of the external process: validate (propagating a wrapped config
error with a nil result), then on execution failure return the `failed`
result together with the same non-nil error, else parse and finalize. -/
def masscanScan (md : String → Option MasscanResult) (target : String)
    (c : ScanConfig) (outcome : ExecOutcome) : Option ScanResult × Option String :=
  match masscanValidateConfig c with
  | Except.error e => (none, some ("invalid config: " ++ e))
  | Except.ok _ =>
    match outcome with
    | ExecOutcome.failure em out =>
      (some { target := target, scanner := "masscan", status := "failed",
              hosts := [], rawOutput := out, error := em }, some em)
    | ExecOutcome.success out => masscanFinalize (parseMasscanJSON md out) target out

/-! ## nmap adapter (`package nmap` half of `pkg/nmap/scanner.go`) -/

/-- Embeds `NmapStatus` (scanner.go lines 158-160). -/
structure NmapStatus where
  state : String
deriving Repr, DecidableEq

/-- Embeds `NmapAddress` (scanner.go lines 163-166). -/
structure NmapAddress where
  addr : String
  addrType : String
deriving Repr, DecidableEq

/-- Embeds `NmapHostname` (scanner.go lines 174-176). -/
structure NmapHostname where
  name : String
deriving Repr, DecidableEq

/-- Embeds `NmapState` (scanner.go lines 192-194). -/
structure NmapState where
  state : String
deriving Repr, DecidableEq

/-- Embeds `NmapService` (scanner.go lines 197-202). -/
structure NmapService where
  name : String
  product : String
  version : String
  info : String
deriving Repr, DecidableEq

/-- Embeds `NmapPort` (scanner.go lines 184-189). -/
structure NmapPortNode where
  protocol : String
  portId : Int
  state : NmapState
  service : NmapService
deriving Repr, DecidableEq

/-- Embeds `NmapOSMatch` (scanner.go lines 210-213). -/
structure NmapOSMatch where
  name : String
  accuracy : Int
deriving Repr, DecidableEq

/-- Embeds `NmapHost` (scanner.go lines 148-155): one `host` node of the
decoded document (`hostnames`/`ports`/`os` wrapper elements flattened to
their lists). -/
structure NmapHost where
  status : NmapStatus
  address : List NmapAddress
  hostnames : List NmapHostname
  ports : List NmapPortNode
  osMatches : List NmapOSMatch
deriving Repr, DecidableEq

/-- Embeds `NmapRun` (scanner.go lines 142-145): the decoded document
root. -/
structure NmapRun where
  hosts : List NmapHost
deriving Repr, DecidableEq

/-- The address loop of `parseNmapXML` (scanner.go lines 232-237): the
first address whose type attribute is `ipv4`, or the zero value `""`. -/
def firstIPv4 : List NmapAddress → String
  | [] => ""
  | a :: rest => if a.addrType = "ipv4" then a.addr else firstIPv4 rest

/-- The per-host body of `parseNmapXML` (scanner.go lines 225-249):
status from the state attribute, first IPv4 address, first hostname if
any, first OS match (name and accuracy) if any; port nodes are never
read. -/
def parseNmapHost (h : NmapHost) : Host :=
  let base : Host :=
    { ipAddress := firstIPv4 h.address, hostname := "", status := h.status.state,
      os := "", osConfidence := 0 }
  let base :=
    match h.hostnames with
    | [] => base
    | hn :: _ => { base with hostname := hn.name }
  match h.osMatches with
  | [] => base
  | m :: _ => { base with os := m.name, osConfidence := m.accuracy }

/-- Embeds `parseNmapXML` (scanner.go lines 216-255) given the outcome
of `xml.Unmarshal`: a decode error is wrapped as
`failed to parse nmap XML: <err>`; otherwise every host node is mapped
through the per-host extraction. -/
def parseNmapXML (xd : Except String NmapRun) : Except String (List Host) :=
  match xd with
  | Except.error e => Except.error ("failed to parse nmap XML: " ++ e)
  | Except.ok run => Except.ok (run.hosts.map parseNmapHost)

/-- The timing test of nmap `ValidateConfig` (scanner.go line 51):
`strconv.Atoi` succeeds and the value lies in `0..5`. -/
def timingOK (s : String) : Bool :=
  match atoi s with
  | none => false
  | some t => decide (0 ≤ t) && decide (t ≤ 5)

/-- Embeds nmap `Scanner.ValidateConfig` (scanner.go lines 40-57):
a non-empty port specification must match the port regexp, and a
non-empty timing string must be an integer in `0..5`. -/
def nmapValidateConfig (c : ScanConfig) : Except String Unit :=
  if c.ports ≠ "" ∧ ¬portSpecOK c.ports then
    Except.error ("invalid port format: " ++ c.ports)
  else if c.timing ≠ "" ∧ ¬timingOK c.timing then
    Except.error ("invalid timing template: " ++ c.timing ++ " (must be 0-5)")
  else Except.ok ()

/-- Argument vector built by nmap `Scanner.Scan` (scanner.go lines
67-93): XML to stdout, optional ports, optional timing, service and OS
detection, user extra arguments, target last. -/
def nmapBuildArgs (c : ScanConfig) (target : String) : List String :=
  let args : List String := ["-oX", "-"]
  let args := if c.ports ≠ "" then args ++ ["-p", c.ports] else args
  let args := if c.timing ≠ "" then args ++ ["-T" ++ c.timing] else args
  let args := args ++ ["-sV"]
  let args := args ++ ["-O"]
  let args := if c.arguments ≠ "" then args ++ goFields c.arguments else args
  args ++ [target]

/-- The post-execution half of nmap `Scanner.Scan` (scanner.go lines
114-138): branch on the parse result, exactly as in `masscanFinalize`
but with scanner name `nmap`. -/
def nmapFinalize (pr : Except String (List Host)) (target out : String) :
    Option ScanResult × Option String :=
  match pr with
  | Except.error pe =>
    (some { target := target, scanner := "nmap", status := "completed_with_errors",
            hosts := [], rawOutput := out, error := pe }, none)
  | Except.ok hosts =>
    (some { target := target, scanner := "nmap", status := "completed",
            hosts := hosts, rawOutput := out, error := "" }, none)

/-- Embeds nmap `Scanner.Scan` (scanner.go lines 60-139) given the
outcome of the external process, with `xml.Unmarshal` of the captured
output as the decoder parameter `xd`. -/
def nmapScan (xd : String → Except String NmapRun) (target : String)
    (c : ScanConfig) (outcome : ExecOutcome) : Option ScanResult × Option String :=
  match nmapValidateConfig c with
  | Except.error e => (none, some ("invalid config: " ++ e))
  | Except.ok _ =>
    match outcome with
    | ExecOutcome.failure em out =>
      (some { target := target, scanner := "nmap", status := "failed",
              hosts := [], rawOutput := out, error := em }, some em)
    | ExecOutcome.success out => nmapFinalize (parseNmapXML (xd out)) target out

/-! ## Scanner registry (`ScannerManager`, src/unnamed/part_002)

The manager holds a Go `map[string]Scanner`; the map is embedded as its
lookup function.  The adapter type is a parameter `α` with its `GetName`
method passed as `getName`. -/

/-- The state of `ScannerManager.scanners` as a lookup function. -/
def Registry (α : Type) : Type := String → Option α

/-- Embeds `NewScannerManager` (src/unnamed/part_002): an empty map. -/
def newScannerManager (α : Type) : Registry α := fun _ => none

/-- Embeds `ScannerManager.RegisterScanner`: map assignment keyed by the
adapter's `GetName()`, overwriting any previous entry. -/
def registerScanner {α : Type} (getName : α → String) (r : Registry α)
    (s : α) : Registry α :=
  fun n => if n = getName s then some s else r n

/-- Embeds `ScannerManager.GetScanner`: the two-valued Go map read
`scanner, exists := sm.scanners[name]`. -/
def getScanner {α : Type} (r : Registry α) (name : String) : Option α × Bool :=
  (r name, (r name).isSome)

/-! ## Concrete test inputs and configurations -/

/-- Configuration with only the port specification set. -/
def cfgPorts (s : String) : ScanConfig :=
  { ports := s, timing := "", arguments := "", output := "", timeout := 0, threads := 0 }

/-- Configuration with only the timing template set. -/
def cfgTiming (s : String) : ScanConfig :=
  { ports := "", timing := s, arguments := "", output := "", timeout := 0, threads := 0 }

/-- The record carried by the first masscan output line below: IP
10.0.0.1 with the single port entry 80/tcp open. -/
def recC1a : MasscanResult :=
  { ip := "10.0.0.1", timestamp := "1700000001",
    ports := [{ port := 80, proto := "tcp", status := "open", reason := "syn-ack", ttl := 64 }] }

/-- The record carried by the second masscan output line below: IP
10.0.0.1 with the single port entry 443/tcp open. -/
def recC1b : MasscanResult :=
  { ip := "10.0.0.1", timestamp := "1700000002",
    ports := [{ port := 443, proto := "tcp", status := "open", reason := "syn-ack", ttl := 64 }] }

/-- First masscan output line: the JSON encoding of `recC1a`. -/
def lineC1a : String :=
  "\x7b\"ip\":\"10.0.0.1\",\"timestamp\":\"1700000001\",\"ports\":[\x7b\"port\":80,\"proto\":\"tcp\",\"status\":\"open\",\"reason\":\"syn-ack\",\"ttl\":64\x7d]\x7d"

/-- Second masscan output line: the JSON encoding of `recC1b`. -/
def lineC1b : String :=
  "\x7b\"ip\":\"10.0.0.1\",\"timestamp\":\"1700000002\",\"ports\":[\x7b\"port\":443,\"proto\":\"tcp\",\"status\":\"open\",\"reason\":\"syn-ack\",\"ttl\":64\x7d]\x7d"

/-- The behavior of `json.Unmarshal` on the two concrete lines above:
each decodes to its record, and every other line (in particular the
blank one) fails to decode. -/
def mdC1 : String → Option MasscanResult := fun l =>
  if l = lineC1a then some recC1a else if l = lineC1b then some recC1b else none

/-- Multi-line masscan output: two valid records for 10.0.0.1 (ports
80/tcp open and 443/tcp open) separated by one blank line. -/
def inC1 : String := lineC1a ++ "\n\n" ++ lineC1b

/-- The 80/tcp open port entry of `recC1a` as a `models.Port`. -/
def portC1a : Port :=
  { number := 80, protocol := "tcp", state := "open",
    service := "", version := "", product := "", extraInfo := "" }

/-- The 443/tcp open port entry of `recC1b` as a `models.Port`. -/
def portC1b : Port :=
  { number := 443, protocol := "tcp", state := "open",
    service := "", version := "", product := "", extraInfo := "" }

/-- Decoded nmap document describing one host: state `up`, IPv4 address
10.0.0.5, hostname `router.local`, one OS match `Linux 3.2 - 4.9` at
accuracy 95, no port nodes. -/
def runC5 : NmapRun :=
  { hosts := [{ status := { state := "up" },
                address := [{ addr := "10.0.0.5", addrType := "ipv4" }],
                hostnames := [{ name := "router.local" }],
                ports := [],
                osMatches := [{ name := "Linux 3.2 - 4.9", accuracy := 95 }] }] }

/-! ## Spec-side port grammar (for the refinement statement of the port
regexp)

`portSpecOK` above is the translation of the source's regexp literal;
the definitions here follow the spec's wording of the grammar instead
("comma-separated individual ports and/or hyphenated ranges") so the two
can be proved equivalent. -/

/-- Tail of `joinSep`: each further field preceded by the separator. -/
def joinRest (sep : Char) : List (List Char) → List Char
  | [] => []
  | g :: gs => sep :: (g ++ joinRest sep gs)

/-- Joins fields with a separator character: the inverse of `splitChar`. -/
def joinSep (sep : Char) : List (List Char) → List Char
  | [] => []
  | g :: gs => g ++ joinRest sep gs

/-- Follows the spec's words for one item of the port grammar: a
nonempty digit run, optionally followed by a hyphen and a second
nonempty digit run. -/
def specItem (it : List Char) : Prop :=
  (it ≠ [] ∧ ∀ c ∈ it, c.isDigit = true) ∨
  (∃ a b : List Char, a ≠ [] ∧ b ≠ [] ∧ (∀ c ∈ a, c.isDigit = true) ∧
    (∀ c ∈ b, c.isDigit = true) ∧ it = a ++ '-' :: b)

/-- Follows the spec's words for the whole port grammar: one or more
comma-separated items. -/
def specPortGrammar (s : String) : Prop :=
  ∃ items : List (List Char), items ≠ [] ∧ (∀ it ∈ items, specItem it) ∧
    s.data = joinSep ',' items

end NetRecon

namespace NetRecon

/-! ## General lemmas -/

/-- Helper: a string with nonempty data stays nonempty under append. -/
theorem strAppend_ne_empty (s t : String) (h : s.data ≠ []) : s ++ t ≠ "" := by
  intro he
  apply h
  have hd : s.data ++ t.data = [] := by
    have h2 : (s ++ t).data = "".data := by rw [he]
    simpa using h2
  exact List.append_eq_nil.mp hd |>.1

/-- Splitting never yields an empty field list. -/
theorem splitPred_ne_nil (p : Char → Bool) (cs : List Char) : splitPred p cs ≠ [] := by
  induction cs with
  | nil => simp [splitPred]
  | cons x rest ih =>
    by_cases hx : p x
    · simp [splitPred, hx]
    · simp only [splitPred, hx, Bool.false_eq_true, if_false]
      cases hsp : splitPred p rest with
      | nil => simp
      | cons g gs => simp

/-- Joining the fields of a split recovers the original characters. -/
theorem joinSep_splitChar (sep : Char) (cs : List Char) :
    joinSep sep (splitChar sep cs) = cs := by
  induction cs with
  | nil => rfl
  | cons x rest ih =>
    show joinSep sep (splitPred (fun c => c = sep) (x :: rest)) = x :: rest
    cases hsp : splitPred (fun c => c = sep) rest with
    | nil => exact absurd hsp (splitPred_ne_nil _ _)
    | cons g gs =>
      have ih2 : g ++ joinRest sep gs = rest := by
        have h0 := ih
        rw [show splitChar sep rest = g :: gs from hsp] at h0
        exact h0
      by_cases hx : x = sep
      · have h1 : splitPred (fun c => c = sep) (x :: rest) =
            [] :: splitPred (fun c => c = sep) rest := by
          simp [splitPred, hx]
        rw [h1, hsp]
        show ([] : List Char) ++ joinRest sep (g :: gs) = x :: rest
        rw [List.nil_append, joinRest, ih2, hx]
      · have h1 : splitPred (fun c => c = sep) (x :: rest) = (x :: g) :: gs := by
          simp [splitPred, hx, hsp]
        rw [h1]
        show (x :: g) ++ joinRest sep gs = x :: rest
        rw [List.cons_append, ih2]

/-- A field without separators splits into itself alone. -/
theorem splitPred_no_sep (p : Char → Bool) (g : List Char)
    (h : ∀ c ∈ g, p c = false) : splitPred p g = [g] := by
  induction g with
  | nil => rfl
  | cons x rest ih =>
    have hx : p x = false := h x (List.mem_cons_self _ _)
    have hrest : splitPred p rest = [rest] :=
      ih (fun c hc => h c (List.mem_cons_of_mem _ hc))
    simp only [splitPred, hx, Bool.false_eq_true, if_false, hrest]

/-- Splitting a separator-free field followed by a separator peels off
that field. -/
theorem splitPred_append_sep (p : Char → Bool) (g : List Char) (x : Char)
    (rest : List Char) (hg : ∀ c ∈ g, p c = false) (hx : p x = true) :
    splitPred p (g ++ x :: rest) = g :: splitPred p rest := by
  induction g with
  | nil => simp only [List.nil_append, splitPred, hx, if_true]
  | cons y g2 ih =>
    have hy : p y = false := hg y (List.mem_cons_self _ _)
    have h2 : splitPred p (g2 ++ x :: rest) = g2 :: splitPred p rest :=
      ih (fun c hc => hg c (List.mem_cons_of_mem _ hc))
    show splitPred p (y :: (g2 ++ x :: rest)) = (y :: g2) :: splitPred p rest
    simp [splitPred, hy, h2]

/-- Splitting a join of separator-free fields recovers the fields. -/
theorem splitChar_joinSep (sep : Char) (g : List Char) (gs : List (List Char))
    (h : ∀ it ∈ g :: gs, ∀ c ∈ it, c ≠ sep) :
    splitChar sep (joinSep sep (g :: gs)) = g :: gs := by
  induction gs generalizing g with
  | nil =>
    show splitPred (fun c => c = sep) (g ++ joinRest sep []) = [g]
    rw [show joinRest sep [] = [] from rfl, List.append_nil]
    exact splitPred_no_sep _ _ (fun c hc => by
      simpa using h g (List.mem_cons_self _ _) c hc)
  | cons g2 gs2 ih =>
    show splitPred (fun c => c = sep) (g ++ joinRest sep (g2 :: gs2)) = g :: g2 :: gs2
    rw [show joinRest sep (g2 :: gs2) = sep :: (g2 ++ joinRest sep gs2) from rfl]
    rw [splitPred_append_sep _ _ _ _ (fun c hc => by
      simpa using h g (List.mem_cons_self _ _) c hc) (by simp)]
    have h2 := ih g2 (fun it hit c hc => h it (List.mem_cons_of_mem _ hit) c hc)
    exact congrArg (g :: ·) h2

/-- `digitRun` decides "nonempty and all ASCII digits". -/
theorem digitRun_iff (cs : List Char) :
    digitRun cs = true ↔ cs ≠ [] ∧ ∀ c ∈ cs, c.isDigit = true := by
  simp [digitRun, List.all_eq_true, List.isEmpty_iff]

/-- The item test of the regexp translation agrees with the spec's
wording of one grammar item. -/
theorem portItemOK_iff_specItem (it : List Char) :
    portItemOK it = true ↔ specItem it := by
  constructor
  · intro h
    cases hsp : splitChar '-' it with
    | nil => exact absurd hsp (splitPred_ne_nil _ _)
    | cons a gs =>
      have hit : it = a ++ joinRest '-' gs := by
        have h2 := joinSep_splitChar '-' it
        rw [hsp] at h2
        exact h2.symm
      cases gs with
      | nil =>
        rw [portItemOK, hsp] at h
        rcases (digitRun_iff a).mp h with ⟨ha, hd⟩
        exact Or.inl (by
          rw [hit, show joinRest '-' [] = [] from rfl, List.append_nil]
          exact ⟨ha, hd⟩)
      | cons b gs2 =>
        cases gs2 with
        | nil =>
          rw [portItemOK, hsp] at h
          simp only [Bool.and_eq_true] at h
          rcases (digitRun_iff a).mp h.1 with ⟨ha, hda⟩
          rcases (digitRun_iff b).mp h.2 with ⟨hb, hdb⟩
          refine Or.inr ⟨a, b, ha, hb, hda, hdb, ?_⟩
          rw [hit, show joinRest '-' [b] = '-' :: (b ++ []) from rfl, List.append_nil]
        | cons c gs3 =>
          rw [portItemOK, hsp] at h
          exact absurd h (by simp)
  · intro h
    rcases h with ⟨hne, hd⟩ | ⟨a, b, ha, hb, hda, hdb, hit⟩
    · have hsp : splitChar '-' it = [it] :=
        splitPred_no_sep _ _ (fun c hc => by
          have hdc := hd c hc
          simp only [decide_eq_false_iff_not]
          intro hcm
          rw [hcm] at hdc
          exact absurd hdc (by decide))
      rw [portItemOK, hsp]
      exact (digitRun_iff it).mpr ⟨hne, hd⟩
    · have hsp : splitChar '-' it = [a, b] := by
        rw [hit]
        show splitPred (fun c => c = '-') (a ++ '-' :: b) = [a, b]
        rw [splitPred_append_sep _ _ _ _ (fun c hc => by
          have hdc := hda c hc
          simp only [decide_eq_false_iff_not]
          intro hcm
          rw [hcm] at hdc
          exact absurd hdc (by decide)) (by simp)]
        rw [splitPred_no_sep _ _ (fun c hc => by
          have hdc := hdb c hc
          simp only [decide_eq_false_iff_not]
          intro hcm
          rw [hcm] at hdc
          exact absurd hdc (by decide))]
      rw [portItemOK, hsp]
      simp only [Bool.and_eq_true]
      exact ⟨(digitRun_iff a).mpr ⟨ha, hda⟩, (digitRun_iff b).mpr ⟨hb, hdb⟩⟩

/-- Characters of a grammar item are digits or a hyphen, never a comma. -/
theorem specItem_no_comma (it : List Char) (h : specItem it) :
    ∀ c ∈ it, c ≠ ',' := by
  rcases h with ⟨_, hd⟩ | ⟨a, b, _, _, hda, hdb, hit⟩
  · intro c hc hcm
    have hdc := hd c hc
    rw [hcm] at hdc
    exact absurd hdc (by decide)
  · intro c hc hcm
    subst hit
    rcases List.mem_append.mp hc with hca | hcb
    · have hdc := hda c hca
      rw [hcm] at hdc
      exact absurd hdc (by decide)
    · rcases List.mem_cons.mp hcb with hdash | hcb2
      · rw [hcm] at hdash
        exact absurd hdash (by decide)
      · have hdc := hdb c hcb2
        rw [hcm] at hdc
        exact absurd hdc (by decide)

/-- The regexp translation `portSpecOK` decides exactly the grammar the
spec describes in words. -/
theorem portSpecOK_iff_specPortGrammar (s : String) :
    portSpecOK s = true ↔ specPortGrammar s := by
  constructor
  · intro h
    cases hsp : splitChar ',' s.data with
    | nil => exact absurd hsp (splitPred_ne_nil _ _)
    | cons g gs =>
      refine ⟨g :: gs, by simp, ?_, ?_⟩
      · intro it hit
        have hall : ∀ it2 ∈ splitChar ',' s.data, portItemOK it2 = true := by
          rw [portSpecOK] at h
          exact fun it2 hit2 => List.all_eq_true.mp h it2 hit2
        rw [hsp] at hall
        exact (portItemOK_iff_specItem it).mp (hall it hit)
      · have h2 := joinSep_splitChar ',' s.data
        rw [hsp] at h2
        exact h2.symm
  · rintro ⟨items, hne, hspec, hdata⟩
    cases items with
    | nil => exact absurd rfl hne
    | cons g gs =>
      rw [portSpecOK, hdata]
      rw [splitChar_joinSep ',' g gs
        (fun it hit => specItem_no_comma it (hspec it hit))]
      exact List.all_eq_true.mpr (fun it hit =>
        (portItemOK_iff_specItem it).mpr (hspec it hit))

/-- Helper: the address loop of `parseNmapXML` selects the first
ipv4-typed address (or the zero value when there is none). -/
theorem firstIPv4_eq_find (l : List NmapAddress) :
    firstIPv4 l =
      (((l.find? fun a => a.addrType == "ipv4").map NmapAddress.addr).getD "") := by
  induction l with
  | nil => rfl
  | cons a t ih =>
    by_cases ha : a.addrType = "ipv4"
    · simp [firstIPv4, ha, List.find?_cons_of_pos]
    · rw [firstIPv4]
      simp only [if_neg ha]
      rw [ih, List.find?_cons_of_neg]
      simpa using ha

end NetRecon

namespace NetRecon

/-! ## Claim theorems -/

set_option maxRecDepth 8000 in
/-- C1: on the three-line masscan output for 10.0.0.1 (one record with
80/tcp open, one blank line, one record with 443/tcp open) the fold
yields exactly one Host with IPAddress `10.0.0.1` and Status `up` and no
error, but the port entries are NOT attached to that Host: the
`models.Host` struct has no ports field and `parseMasscanJSON` discards
every `models.Port` value it builds (the `_ =` assignment at scanner.go
line 437); the entries 80/tcp and 443/tcp are recoverable only by the
separate `GetPortsFromJSON` pass, as the second conjunct shows. -/
theorem C1_ports_parsed_but_not_attached :
    parseMasscanJSON mdC1 inC1 =
      Except.ok [{ ipAddress := "10.0.0.1", hostname := "", status := "up",
                   os := "", osConfidence := 0 }]
    ∧ GetPortsFromJSON mdC1 inC1 = Except.ok [portC1a, portC1b] := by
  constructor
  · rfl
  · rfl

/-- C2: for either adapter, when the external process succeeds but the
output parse fails, `Scan` returns status `completed_with_errors`, an
empty host list, a non-empty error field, the verbatim raw output, and a
nil caller error.  (For the nmap adapter this is stated on `Scan` with a
failing XML decode; for the masscan adapter, whose parser never fails,
it is stated on the parse-error branch of its `Scan`.) -/
theorem C2_parse_failure_not_caller_visible :
    ∀ (xd : String → Except String NmapRun) (c : ScanConfig)
      (target out e pe : String),
    (nmapValidateConfig c = Except.ok () → xd out = Except.error e →
      nmapScan xd target c (ExecOutcome.success out) =
        (some { target := target, scanner := "nmap",
                status := "completed_with_errors", hosts := [], rawOutput := out,
                error := "failed to parse nmap XML: " ++ e }, none)
      ∧ ("failed to parse nmap XML: " ++ e) ≠ "")
    ∧ (pe ≠ "" →
        masscanFinalize (Except.error pe) target out =
          (some { target := target, scanner := "masscan",
                  status := "completed_with_errors", hosts := [], rawOutput := out,
                  error := pe }, none)) := by
  intro xd c target out e pe
  constructor
  · intro hv hx
    constructor
    · simp [nmapScan, hv, parseNmapXML, hx, nmapFinalize]
    · exact strAppend_ne_empty _ _ (by decide)
  · intro _
    rfl

/-- Closed instance of C2: nmap `Scan` on output the XML decoder rejects
reports `completed_with_errors` with the wrapped parse error and no
caller error, and masscan's parse-error branch does the same. -/
theorem C2_witness :
    nmapScan (fun _ => Except.error "unexpected EOF") "t" (cfgPorts "")
        (ExecOutcome.success "<garbage") =
      (some { target := "t", scanner := "nmap", status := "completed_with_errors",
              hosts := [], rawOutput := "<garbage",
              error := "failed to parse nmap XML: unexpected EOF" }, none)
    ∧ masscanFinalize (Except.error "boom") "t" "<garbage" =
      (some { target := "t", scanner := "masscan",
              status := "completed_with_errors", hosts := [], rawOutput := "<garbage",
              error := "boom" }, none) :=
  ⟨((C2_parse_failure_not_caller_visible (fun _ => Except.error "unexpected EOF")
      (cfgPorts "") "t" "<garbage" "unexpected EOF" "boom").1 rfl rfl).1,
   (C2_parse_failure_not_caller_visible (fun _ => Except.error "unexpected EOF")
      (cfgPorts "") "t" "<garbage" "unexpected EOF" "boom").2 (by decide)⟩

/-- C3: for either adapter, when execution of the external process
itself fails, `Scan` returns status `failed` with an empty host list and
the failure description in the error field, and additionally returns the
same non-nil error to the caller. -/
theorem C3_exec_failure_double_reported :
    ∀ (xd : String → Except String NmapRun) (md : String → Option MasscanResult)
      (c1 c2 : ScanConfig) (target em out : String),
    (nmapValidateConfig c1 = Except.ok () →
      nmapScan xd target c1 (ExecOutcome.failure em out) =
        (some { target := target, scanner := "nmap", status := "failed",
                hosts := [], rawOutput := out, error := em }, some em))
    ∧ (masscanValidateConfig c2 = Except.ok () →
        masscanScan md target c2 (ExecOutcome.failure em out) =
          (some { target := target, scanner := "masscan", status := "failed",
                  hosts := [], rawOutput := out, error := em }, some em)) := by
  intro xd md c1 c2 target em out
  constructor
  · intro hv
    simp [nmapScan, hv]
  · intro hv
    simp [masscanScan, hv]

/-- Closed instance of C3: a non-zero-exit outcome yields the `failed`
result and a non-nil caller error for both adapters. -/
theorem C3_witness :
    nmapScan (fun _ => Except.error "x") "t" (cfgPorts "")
        (ExecOutcome.failure "exit status 1" "") =
      (some { target := "t", scanner := "nmap", status := "failed", hosts := [],
              rawOutput := "", error := "exit status 1" }, some "exit status 1")
    ∧ masscanScan (fun _ => none) "t" (cfgPorts "80")
        (ExecOutcome.failure "exit status 1" "") =
      (some { target := "t", scanner := "masscan", status := "failed", hosts := [],
              rawOutput := "", error := "exit status 1" }, some "exit status 1") :=
  ⟨(C3_exec_failure_double_reported (fun _ => Except.error "x") (fun _ => none)
      (cfgPorts "") (cfgPorts "80") "t" "exit status 1" "").1 rfl,
   (C3_exec_failure_double_reported (fun _ => Except.error "x") (fun _ => none)
      (cfgPorts "") (cfgPorts "80") "t" "exit status 1" "").2 rfl⟩

/-- C4: both adapters build their argument vectors by the fixed
templates — nmap: `-oX -`, optional `-p <ports>`, optional `-T<timing>`,
`-sV`, `-O`, user extra arguments, target last; masscan: target, `-p
<ports>`, `--rate <threads>` (1000 when threads is not positive),
`--output-format json`, user extra arguments last — so user-supplied
extra arguments always follow every built-in default. -/
theorem C4_argument_vector_templates :
    ∀ (c : ScanConfig) (target : String),
    nmapBuildArgs c target =
      ["-oX", "-"] ++ (if c.ports ≠ "" then ["-p", c.ports] else [])
        ++ (if c.timing ≠ "" then ["-T" ++ c.timing] else [])
        ++ ["-sV", "-O"] ++ goFields c.arguments ++ [target]
    ∧ masscanBuildArgs c target =
      [target] ++ ["-p", c.ports]
        ++ ["--rate", if 0 < c.threads then toString c.threads else "1000"]
        ++ ["--output-format", "json"] ++ goFields c.arguments := by
  intro c target
  have hemp : goFields "" = [] := rfl
  constructor
  · by_cases hp : c.ports = "" <;> by_cases ht : c.timing = "" <;>
      by_cases ha : c.arguments = "" <;>
        simp [nmapBuildArgs, hp, ht, ha, hemp]
  · by_cases hth : 0 < c.threads <;> by_cases ha : c.arguments = "" <;>
      simp [masscanBuildArgs, hth, ha, hemp]

/-- C5: parsing the decoded document `runC5` (one host: state up, IPv4
10.0.0.5, hostname router.local, OS match Linux 3.2 - 4.9 at 95) yields
exactly that one Host with no ports (the Host model carries none and the
parser never reads port nodes); in general the parser takes the state
attribute, the first ipv4-typed address, the first hostname and the
first OS match of each host node, and ignores its port nodes. -/
theorem C5_nmap_parse_first_of_each :
    parseNmapXML (Except.ok runC5) =
      Except.ok [{ ipAddress := "10.0.0.5", hostname := "router.local",
                   status := "up", os := "Linux 3.2 - 4.9", osConfidence := 95 }]
    ∧ (∀ h : NmapHost,
        (parseNmapHost h).status = h.status.state
        ∧ (parseNmapHost h).ipAddress =
            (((h.address.find? fun a => a.addrType == "ipv4").map
              NmapAddress.addr).getD "")
        ∧ (parseNmapHost h).hostname =
            ((h.hostnames.head?.map NmapHostname.name).getD "")
        ∧ (parseNmapHost h).os = ((h.osMatches.head?.map NmapOSMatch.name).getD "")
        ∧ (parseNmapHost h).osConfidence =
            ((h.osMatches.head?.map NmapOSMatch.accuracy).getD 0))
    ∧ (∀ (h : NmapHost) (ps1 ps2 : List NmapPortNode),
        parseNmapHost { h with ports := ps1 } =
          parseNmapHost { h with ports := ps2 }) := by
  refine ⟨rfl, ?_, ?_⟩
  · intro h
    obtain ⟨st, ad, hn, ps, om⟩ := h
    refine ⟨?_, ?_, ?_, ?_, ?_⟩ <;>
      cases hn <;> cases om <;>
        simp [parseNmapHost, firstIPv4_eq_find]
  · intro h ps1 ps2
    obtain ⟨st, ad, hn, ps, om⟩ := h
    rfl

/-- C6: `portSpecOK` (the translation of the source's port regexp)
decides exactly the grammar the spec states in words; every string in
that grammar passes both adapters' port check; every non-empty string
outside it is rejected by both with the invalid-port-format error; the
spec's sample strings behave as listed; and the nmap adapter accepts an
empty port specification while the masscan adapter rejects it. -/
theorem C6_port_spec_validation :
    (∀ s : String, portSpecOK s = true ↔ specPortGrammar s)
    ∧ (∀ s : String,
      (portSpecOK s = true →
        nmapValidateConfig (cfgPorts s) = Except.ok ()
        ∧ masscanValidateConfig (cfgPorts s) = Except.ok ())
      ∧ (s ≠ "" → portSpecOK s = false →
        nmapValidateConfig (cfgPorts s) = Except.error ("invalid port format: " ++ s)
        ∧ masscanValidateConfig (cfgPorts s) =
            Except.error ("invalid port format: " ++ s)))
    ∧ portSpecOK "abc" = false ∧ portSpecOK "80-" = false ∧ portSpecOK ",80" = false
    ∧ portSpecOK "22,80,8000-8100" = true
    ∧ nmapValidateConfig (cfgPorts "") = Except.ok ()
    ∧ masscanValidateConfig (cfgPorts "") =
        Except.error "ports must be specified for masscan" := by
  refine ⟨portSpecOK_iff_specPortGrammar, ?_, by decide, by decide, by decide,
    by decide, rfl, rfl⟩
  intro s
  constructor
  · intro hok
    have hne : s ≠ "" := by
      intro he
      rw [he] at hok
      exact absurd hok (by decide)
    constructor
    · simp [nmapValidateConfig, cfgPorts, hok]
    · simp [masscanValidateConfig, cfgPorts, hok, hne]
  · intro hne hbad
    constructor
    · simp [nmapValidateConfig, cfgPorts, hbad, hne]
    · simp [masscanValidateConfig, cfgPorts, hbad, hne]

/-- Closed instance of C6: a grammar-conforming specification passes
both validators and a malformed one is rejected by both. -/
theorem C6_witness :
    (nmapValidateConfig (cfgPorts "22,80,8000-8100") = Except.ok ()
      ∧ masscanValidateConfig (cfgPorts "22,80,8000-8100") = Except.ok ())
    ∧ (nmapValidateConfig (cfgPorts "80-") =
        Except.error ("invalid port format: " ++ "80-")
      ∧ masscanValidateConfig (cfgPorts "80-") =
        Except.error ("invalid port format: " ++ "80-")) :=
  ⟨(C6_port_spec_validation.2.1 "22,80,8000-8100").1 (by decide),
   (C6_port_spec_validation.2.1 "80-").2 (by decide) (by decide)⟩

/-- C7: for a non-empty timing string the nmap validator accepts exactly
when `strconv.Atoi` succeeds with a value in `0..5`; each of the strings
`0`..`5` is accepted and `-1` and `6` are rejected. -/
theorem C7_timing_validation :
    (∀ s : String, s ≠ "" →
      (nmapValidateConfig (cfgTiming s) = Except.ok () ↔
        ∃ n : Int, atoi s = some n ∧ 0 ≤ n ∧ n ≤ 5))
    ∧ nmapValidateConfig (cfgTiming "0") = Except.ok ()
    ∧ nmapValidateConfig (cfgTiming "1") = Except.ok ()
    ∧ nmapValidateConfig (cfgTiming "2") = Except.ok ()
    ∧ nmapValidateConfig (cfgTiming "3") = Except.ok ()
    ∧ nmapValidateConfig (cfgTiming "4") = Except.ok ()
    ∧ nmapValidateConfig (cfgTiming "5") = Except.ok ()
    ∧ nmapValidateConfig (cfgTiming "-1") =
        Except.error "invalid timing template: -1 (must be 0-5)"
    ∧ nmapValidateConfig (cfgTiming "6") =
        Except.error "invalid timing template: 6 (must be 0-5)" := by
  refine ⟨?_, rfl, rfl, rfl, rfl, rfl, rfl, rfl, rfl⟩
  intro s hne
  constructor
  · intro hok
    have ht : timingOK s = true := by
      by_contra ht
      have hbad : nmapValidateConfig (cfgTiming s) =
          Except.error ("invalid timing template: " ++ s ++ " (must be 0-5)") := by
        simp [nmapValidateConfig, cfgTiming, hne, ht]
      rw [hbad] at hok
      exact Except.noConfusion hok
    unfold timingOK at ht
    cases hato : atoi s with
    | none => rw [hato] at ht; exact absurd ht (by simp)
    | some t =>
      rw [hato] at ht
      simp only [Bool.and_eq_true, decide_eq_true_eq] at ht
      exact ⟨t, rfl, ht.1, ht.2⟩
  · rintro ⟨n, hato, h0, h5⟩
    have ht : timingOK s = true := by
      unfold timingOK
      rw [hato]
      simp [h0, h5]
    simp [nmapValidateConfig, cfgTiming, ht]

/-- Closed instance of C7: the non-empty timing string `3` is accepted
because it parses to 3 in range. -/
theorem C7_witness :
    nmapValidateConfig (cfgTiming "3") = Except.ok () :=
  (C7_timing_validation.1 "3" (by decide)).mpr ⟨3, by decide, by decide, by decide⟩

/-- C8: in the high-speed adapter's line-oriented parser, a line that is
blank or that the decoder rejects leaves the host map unchanged, and the
parse as a whole never returns an error on any input. -/
theorem C8_invalid_lines_skipped_silently :
    (∀ (md : String → Option MasscanResult) (hostMap : List (String × Host))
      (line : String), trimGo line.data = [] ∨ md line = none →
        masscanFoldLine md hostMap line = hostMap)
    ∧ (∀ (md : String → Option MasscanResult) (input : String),
        ∃ hosts, parseMasscanJSON md input = Except.ok hosts) := by
  constructor
  · intro md hostMap line h
    rcases h with h | h
    · simp [masscanFoldLine, h]
    · simp [masscanFoldLine, h]
  · intro md input
    exact ⟨_, rfl⟩

/-- Closed instance of C8: a line that decodes to nothing is skipped. -/
theorem C8_witness :
    masscanFoldLine (fun _ => none) [] "not json" = [] :=
  C8_invalid_lines_skipped_silently.1 (fun _ => none) [] "not json" (Or.inr rfl)

/-- C9: in the scanner registry, a second registration under an already
registered name replaces the first without error; lookup of a registered
name returns that adapter with found = true; registration under one name
does not disturb lookups of other names; and lookup of a name no
registration used returns found = false. -/
theorem C9_registry_last_write_wins :
    ∀ (α : Type) (getName : α → String) (r : Registry α) (a b : α) (name n : String),
    (getName a = name → getName b = name →
      getScanner (registerScanner getName (registerScanner getName r a) b) name =
        (some b, true))
    ∧ getScanner (registerScanner getName r a) (getName a) = (some a, true)
    ∧ (n ≠ getName a →
        getScanner (registerScanner getName r a) n = getScanner r n)
    ∧ (∀ ss : List α, (∀ s ∈ ss, getName s ≠ n) →
        getScanner (List.foldl (registerScanner getName) (newScannerManager α) ss) n =
          (none, false)) := by
  intro α getName r a b name n
  refine ⟨?_, ?_, ?_, ?_⟩
  · intro _ hb
    simp [getScanner, registerScanner, hb]
  · simp [getScanner, registerScanner]
  · intro hn
    simp [getScanner, registerScanner, hn]
  · intro ss
    have key : ∀ (l : List α) (r0 : Registry α), (∀ s ∈ l, getName s ≠ n) →
        r0 n = none → (List.foldl (registerScanner getName) r0 l) n = none := by
      intro l
      induction l with
      | nil => intro r0 _ h0; simpa using h0
      | cons x xs ih =>
        intro r0 hl h0
        simp only [List.foldl_cons]
        refine ih _ (fun s hs => hl s (List.mem_cons_of_mem _ hs)) ?_
        simp [registerScanner, h0]
        intro hn2
        exact absurd hn2.symm (hl x (List.mem_cons_self _ _))
    intro hss
    have hnone := key ss (newScannerManager α) hss rfl
    simp [getScanner, hnone]

/-- Closed instance of C9: registering 1 then 2 under the same name
leaves only 2; a never-registered name is not found. -/
theorem C9_witness :
    getScanner (registerScanner (fun _ : Nat => "x")
        (registerScanner (fun _ : Nat => "x") (newScannerManager Nat) 1) 2) "x" =
      (some 2, true)
    ∧ getScanner (List.foldl (registerScanner (fun _ : Nat => "x"))
        (newScannerManager Nat) [1, 2]) "y" = (none, false) :=
  ⟨(C9_registry_last_write_wins Nat (fun _ => "x") (newScannerManager Nat)
      1 2 "x" "y").1 rfl rfl,
   (C9_registry_last_write_wins Nat (fun _ => "x") (newScannerManager Nat)
      1 2 "x" "y").2.2.2 [1, 2] (by intro s _; decide)⟩

/-- C10: `parseMasscanJSON` returns a nil error on every input (its only
return site returns nil), so the `completed_with_errors` branch of the
masscan `Scan` is unreachable: after a successful process execution the
masscan `Scan` always returns status `completed` with a nil caller
error, whatever the output was. -/
theorem C10_masscan_parse_never_fails :
    (∀ (md : String → Option MasscanResult) (input : String),
      ∃ hosts, parseMasscanJSON md input = Except.ok hosts)
    ∧ (∀ (md : String → Option MasscanResult) (target : String) (c : ScanConfig)
        (out : String), masscanValidateConfig c = Except.ok () →
        ∃ r, masscanScan md target c (ExecOutcome.success out) = (some r, none)
          ∧ r.status = "completed") := by
  constructor
  · intro md input
    exact ⟨_, rfl⟩
  · intro md target c out hv
    refine ⟨{ target := target, scanner := "masscan", status := "completed",
              hosts := ((((splitChar '\n' (trimGo out.data)).map String.mk).foldl
                (masscanFoldLine md) []).map Prod.snd),
              rawOutput := out, error := "" }, ?_, rfl⟩
    simp [masscanScan, hv, masscanFinalize, parseMasscanJSON]

/-- Closed instance of C10: masscan `Scan` on unparseable output still
reports `completed` and no caller error. -/
theorem C10_witness :
    ((masscanScan (fun _ => none) "t" (cfgPorts "80")
        (ExecOutcome.success "garbage")).1.map ScanResult.status) = some "completed"
    ∧ (masscanScan (fun _ => none) "t" (cfgPorts "80")
        (ExecOutcome.success "garbage")).2 = none := by
  obtain ⟨r, hr, hs⟩ :=
    C10_masscan_parse_never_fails.2 (fun _ => none) "t" (cfgPorts "80") "garbage" rfl
  rw [hr]
  simp [hs]

end NetRecon
